import Mathlib

/-!
Verification development for the Viona-Pro inventory / organization
management application.  The definitions below are a shallow embedding of
the data model and of the data-mutating server actions found in
`lib/auth.ts`, `app/organization/actions.ts` and `app/inventory/actions.ts`.
Database tables are lists of rows, Prisma transactions are functions
`DB → Except TxErr DB` (an error result models a rolled-back transaction),
and the Clerk identity provider is passed in as explicit parameters
(`clerkUserId`, `clerkEmail`).
-/

namespace Viona

/-- Internal user record (`User` table): numeric id, Clerk principal id, email. -/
structure UserRec where
  user_id : Nat
  clerk_id : String
  email : String
deriving Repr, DecidableEq

/-- Organization row: id, name, creator user id. -/
structure Org where
  org_id : Int
  name : String
  created_by : Nat
deriving Repr, DecidableEq

/-- OrganizationMember row: unique per (org_id, user_id), role is a string. -/
structure Member where
  org_id : Int
  user_id : Nat
  role : String
deriving Repr, DecidableEq

/-- OrganizationInvite row.  `expires_at` is an absolute timestamp
(`none` models a NULL expiry). -/
structure Invite where
  org_id : Int
  email : String
  role : String
  token : String
  status : String
  expires_at : Option Nat
deriving Repr, DecidableEq

/-- Warehouse row. -/
structure Warehouse where
  warehouse_id : Int
  org_id : Int
  name : String
  address : String
deriving Repr, DecidableEq

/-- Product row. -/
structure ProductRec where
  product_id : Int
  org_id : Int
  name : String
  sku : String
  description : Option String
  image_url : Option String
  status : String
  created_by : Nat
  modified_by : Option Nat
deriving Repr, DecidableEq

/-- ProductStock row: quantity of one product in one warehouse. -/
structure StockRow where
  stock_id : Nat
  product_id : Int
  warehouse_id : Int
  quantity : Int
deriving Repr, DecidableEq

/-- ProductPrice row.  Prices are modelled as integers (the numeric value
is irrelevant to every claim below). -/
structure PriceRow where
  price_id : Nat
  product_id : Int
  retail_price : Int
  actual_price : Option Int
  valid_from : Nat
  valid_to : Option Nat
deriving Repr, DecidableEq

/-- StockMovement ledger row (append-only). -/
structure Movement where
  product_id : Int
  warehouse_id : Int
  type : String
  quantity : Int
  reason : String
  notes : Option String
  created_by : Nat
deriving Repr, DecidableEq

/-- Order row (only referenced for counts and cascading deletes). -/
structure OrderRec where
  order_id : Nat
  org_id : Int
deriving Repr, DecidableEq

/-- OrderItem row. -/
structure OrderItemRec where
  order_item_id : Nat
  order_id : Nat
  product_id : Int
deriving Repr, DecidableEq

/-- The whole database.  The `next…Id` counters model auto-increment keys. -/
structure DB where
  users : List UserRec
  organizations : List Org
  members : List Member
  invites : List Invite
  warehouses : List Warehouse
  products : List ProductRec
  productStocks : List StockRow
  productPrices : List PriceRow
  stockMovements : List Movement
  orders : List OrderRec
  orderItems : List OrderItemRec
  nextUserId : Nat
  nextWarehouseId : Int
  nextProductId : Int
  nextStockId : Nat
  nextPriceId : Nat
deriving Repr, DecidableEq

/-- An empty database. -/
def emptyDB : DB :=
  ⟨[], [], [], [], [], [], [], [], [], [], [], 0, 0, 0, 0, 0⟩

/-- Typed errors thrown by the actions (the source throws `Error` with
distinguishing messages; we keep one constructor per distinct failure). -/
inductive TxErr where
  | unauthorized
  | validationErr (msg : String)
  | notFound
  | accessDenied
  | conflictDependents (warehouses products orders : Nat)
  | conflictSku
  | insufficientStock
  | invalidInvite
  | expiredInvite
  | emailMismatch
  | alreadyMember
  | identityErr
  | dbErr
deriving Repr, DecidableEq

/-- Result of running a transaction against a database: an error models a
rollback, so the database is returned unchanged. -/
def applyTx (db : DB) (r : Except TxErr DB) : DB :=
  match r with
  | .ok d => d
  | .error _ => db

/-- JS-style whitespace test used by `String.prototype.trim`. -/
def isSpaceChar (c : Char) : Bool :=
  c == ' ' || c == '\t' || c == '\n' || c == '\r'

/-- Drop leading and trailing whitespace from a character list. -/
def trimChars (l : List Char) : List Char :=
  ((l.dropWhile isSpaceChar).reverse.dropWhile isSpaceChar).reverse

/-- Model of the JS `String.prototype.trim` used throughout the actions. -/
def strTrim (s : String) : String :=
  ⟨trimChars s.data⟩

/-- Decimal digit test. -/
def isDigitChar (c : Char) : Bool :=
  '0' ≤ c && c ≤ '9'

/-- Accumulate a decimal number from a character list; `none` on any
non-digit character. -/
def digitsToNat : List Char → Nat → Option Nat
  | [], acc => some acc
  | c :: cs, acc =>
    if isDigitChar c then digitsToNat cs (acc * 10 + (c.toNat - '0'.toNat))
    else none

/-- Model of the JS `BigInt(string)` conversion: trims, accepts an optional
sign followed by decimal digits, maps the empty string to `0`, and fails
(throws, modelled as `none`) on anything else. -/
def parseBigInt (s : String) : Option Int :=
  match trimChars s.data with
  | [] => some 0
  | '-' :: rest =>
    if rest = [] then none
    else (digitsToNat rest 0).map (fun n => -(n : Int))
  | '+' :: rest =>
    if rest = [] then none
    else (digitsToNat rest 0).map (fun n => (n : Int))
  | cs => (digitsToNat cs 0).map (fun n => (n : Int))

/-- Shallow embedding of `hasPermission` from `lib/auth.ts`: `null`, the
empty string and the sentinel strings are rejected, `admin` is a wildcard,
any other role is tested for membership in `requiredRoles`. -/
def hasPermission (role : Option String) (requiredRoles : List String) : Bool :=
  match role with
  | none => false
  | some r =>
    if r = "null" ∨ r = "undefined" ∨ r = "" ∨ r = "NULL" then false
    else if r = "admin" then true
    else requiredRoles.contains r

/-- Failure-injection switches for the database calls that `getUserRole`
may have to perform.  The source catches every exception thrown by these
calls; the switches let us state what the catch handler does. -/
structure Faults where
  createUserFails : Bool
  upsertFails : Bool
deriving Repr, DecidableEq

/-- No injected failures. -/
def noFaults : Faults := ⟨false, false⟩

/-- Shallow embedding of the `getOrCreateUser` helper (`lib/auth.ts`):
look the principal up by Clerk id; if absent, require an email from Clerk
(else throw) and create the user row. -/
def getOrCreateUser (db : DB) (f : Faults) (clerkUserId : String)
    (clerkEmail : Option String) : Except TxErr (UserRec × DB) :=
  match db.users.find? (fun u => u.clerk_id == clerkUserId) with
  | some u => .ok (u, db)
  | none =>
    match clerkEmail with
    | none => .error .identityErr
    | some email =>
      if f.createUserFails then .error .dbErr
      else
        let u : UserRec := ⟨db.nextUserId, clerkUserId, email⟩
        .ok (u, { db with users := db.users ++ [u], nextUserId := db.nextUserId + 1 })

/-- Look up the membership row for (org, user), as
`organizationMember.findUnique` does. -/
def findMember (members : List Member) (oid : Int) (uid : Nat) : Option Member :=
  members.find? (fun m => m.org_id == oid && m.user_id == uid)

/-- Prisma `organizationMember.upsert`: update the row's role when a row
for the (org, user) pair exists, insert a fresh row otherwise. -/
def upsertMember (members : List Member) (oid : Int) (uid : Nat)
    (role : String) : List Member :=
  if (findMember members oid uid).isSome then
    members.map (fun m =>
      if m.org_id == oid && m.user_id == uid then { m with role := role } else m)
  else
    members ++ [⟨oid, uid, role⟩]

/-- The body of the `try` block of `getUserRole` (`lib/auth.ts`): convert
the organization id with `BigInt`, resolve the user, special-case the
organization's creator (upsert an admin membership and return `admin`),
otherwise read the membership row.  An error carries the database as it
stands when the exception is thrown (these calls run in no transaction). -/
def getUserRoleAux (db : DB) (f : Faults) (cid : String) (clerkEmail : Option String)
    (orgIdStr : String) : Except (TxErr × DB) (Option String × DB) :=
  match parseBigInt orgIdStr with
  | none => .error (.validationErr "Cannot convert to BigInt", db)
  | some oid =>
    match getOrCreateUser db f cid clerkEmail with
    | .error e => .error (e, db)
    | .ok (u, db1) =>
      match db1.organizations.find? (fun o => o.org_id == oid && o.created_by == u.user_id) with
      | some _ =>
        if f.upsertFails then .error (.dbErr, db1)
        else .ok (some "admin", { db1 with members := upsertMember db1.members oid u.user_id "admin" })
      | none =>
        match findMember db1.members oid u.user_id with
        | some m => .ok (if m.role = "" then none else some m.role, db1)
        | none => .ok (none, db1)

/-- Shallow embedding of `getUserRole` (`lib/auth.ts`): returns `none`
when unauthenticated, and wraps `getUserRoleAux` in the catch-all handler
that turns every thrown error into a `none` role. -/
def getUserRole (db : DB) (f : Faults) (clerkUserId : Option String)
    (clerkEmail : Option String) (orgIdStr : String) : Option String × DB :=
  match clerkUserId with
  | none => (none, db)
  | some cid =>
    match getUserRoleAux db f cid clerkEmail orgIdStr with
    | .ok r => r
    | .error (_, db1) => (none, db1)

end Viona

namespace Viona

theorem findMember_upsertMember (members : List Member) (oid : Int) (uid : Nat)
    (role : String) :
    findMember (upsertMember members oid uid role) oid uid = some ⟨oid, uid, role⟩ := by
  unfold upsertMember
  by_cases h : (findMember members oid uid).isSome
  · rw [if_pos h]
    obtain ⟨m, hm⟩ := Option.isSome_iff_exists.mp h
    unfold findMember at hm ⊢
    rw [List.find?_map]
    have hcomp : ((fun m : Member => m.org_id == oid && m.user_id == uid) ∘
        (fun m : Member => if m.org_id == oid && m.user_id == uid then { m with role := role } else m)) =
        (fun m : Member => m.org_id == oid && m.user_id == uid) := by
      funext x
      by_cases hx : x.org_id == oid && x.user_id == uid
      · simp [Function.comp, hx]
      · simp [Function.comp, hx]
    rw [hcomp, hm]
    have hpred := List.find?_some hm
    have h1 : m.org_id = oid := by
      have := (Bool.and_eq_true _ _).mp hpred |>.1; exact beq_iff_eq.mp this
    have h2 : m.user_id = uid := by
      have := (Bool.and_eq_true _ _).mp hpred |>.2; exact beq_iff_eq.mp this
    simp [hpred, h1, h2]
  · rw [if_neg h]
    have hnone : findMember members oid uid = none := by
      cases hfm : findMember members oid uid with
      | none => rfl
      | some m => rw [hfm] at h; simp at h
    unfold findMember at hnone ⊢
    rw [List.find?_append, hnone]
    simp

theorem upsertMember_length_of_isSome (members : List Member) (oid : Int) (uid : Nat)
    (role : String) (h : (findMember members oid uid).isSome) :
    (upsertMember members oid uid role).length = members.length := by
  unfold upsertMember
  rw [if_pos h, List.length_map]

theorem upsertMember_of_none (members : List Member) (oid : Int) (uid : Nat)
    (role : String) (h : findMember members oid uid = none) :
    upsertMember members oid uid role = members ++ [⟨oid, uid, role⟩] := by
  unfold upsertMember
  rw [if_neg (by simp [h])]

/-- Claim C2: `hasPermission` is a pure total function; `null`, the empty
string and the sentinel strings `"null"`, `"undefined"`, `"NULL"` are always
denied; `admin` is always allowed (including against the empty list); any
other non-empty role is allowed exactly when it is a member of
`requiredRoles`. -/
theorem hasPermission_spec (requiredRoles : List String) (r : String) :
    hasPermission none requiredRoles = false ∧
    hasPermission (some "") requiredRoles = false ∧
    hasPermission (some "null") requiredRoles = false ∧
    hasPermission (some "undefined") requiredRoles = false ∧
    hasPermission (some "NULL") requiredRoles = false ∧
    hasPermission (some "admin") requiredRoles = true ∧
    hasPermission (some "admin") [] = true ∧
    (r ≠ "" → r ≠ "null" → r ≠ "undefined" → r ≠ "NULL" → r ≠ "admin" →
      (hasPermission (some r) requiredRoles = true ↔ r ∈ requiredRoles)) := by
  refine ⟨rfl, rfl, rfl, rfl, rfl, rfl, rfl, ?_⟩
  intro h1 h2 h3 h4 h5
  simp only [hasPermission]
  rw [if_neg (by simp [h1, h2, h3, h4]), if_neg h5]
  simp [List.contains, List.elem_iff]

/-- Witness for C2 at a concrete non-admin, non-sentinel role. -/
theorem hasPermission_spec_witness :
    hasPermission (some "reader") ["writer"] = true ↔ "reader" ∈ ["writer"] :=
  (hasPermission_spec ["writer"] "reader").2.2.2.2.2.2.2
    (by decide) (by decide) (by decide) (by decide) (by decide)

end Viona

namespace Viona

/-- Concrete database for the C1 witness: one user (the creator of the one
organization) and an empty membership table. -/
def dbCreator : DB :=
  { emptyDB with
    users := [⟨1, "ck1", "a@b.c"⟩],
    organizations := [⟨5, "Acme", 1⟩],
    nextUserId := 2 }

/-- Claim C1: when the authenticated principal resolves to the user that
created the organization, `getUserRole` returns `admin` regardless of the
prior state of the membership table, and upserts an `(org, creator, admin)`
member row — updating the existing row if one exists (table length is
unchanged), inserting a fresh row if not. -/
theorem getUserRole_creator_admin (db : DB) (cid : String) (ce : Option String)
    (orgIdStr : String) (oid : Int) (u : UserRec) (o : Org)
    (hparse : parseBigInt orgIdStr = some oid)
    (huser : db.users.find? (fun x => x.clerk_id == cid) = some u)
    (ho : o ∈ db.organizations) (hoid : o.org_id = oid)
    (hcreator : o.created_by = u.user_id) :
    (getUserRole db noFaults (some cid) ce orgIdStr).1 = some "admin" ∧
    findMember (getUserRole db noFaults (some cid) ce orgIdStr).2.members oid u.user_id
      = some ⟨oid, u.user_id, "admin"⟩ ∧
    ((findMember db.members oid u.user_id).isSome →
      (getUserRole db noFaults (some cid) ce orgIdStr).2.members.length
        = db.members.length) ∧
    (findMember db.members oid u.user_id = none →
      (getUserRole db noFaults (some cid) ce orgIdStr).2.members
        = db.members ++ [⟨oid, u.user_id, "admin"⟩]) := by
  have horg : ∃ o2, db.organizations.find?
      (fun x => x.org_id == oid && x.created_by == u.user_id) = some o2 := by
    rw [← Option.isSome_iff_exists, List.find?_isSome]
    exact ⟨o, ho, by simp [hoid, hcreator]⟩
  obtain ⟨o2, ho2⟩ := horg
  have hrun : getUserRole db noFaults (some cid) ce orgIdStr =
      (some "admin", { db with members := upsertMember db.members oid u.user_id "admin" }) := by
    simp only [getUserRole, getUserRoleAux, getOrCreateUser, hparse, huser, ho2, noFaults]
    rfl
  refine ⟨by rw [hrun], ?_, ?_, ?_⟩
  · rw [hrun]
    exact findMember_upsertMember db.members oid u.user_id "admin"
  · intro hsome
    rw [hrun]
    exact upsertMember_length_of_isSome db.members oid u.user_id "admin" hsome
  · intro hnone
    rw [hrun]
    exact upsertMember_of_none db.members oid u.user_id "admin" hnone

/-- Witness for C1: a creator with no membership row resolves to `admin`
and the admin member row is inserted. -/
theorem getUserRole_creator_admin_witness :
    parseBigInt "5" = some 5 ∧
    (getUserRole dbCreator noFaults (some "ck1") none "5").1 = some "admin" ∧
    (getUserRole dbCreator noFaults (some "ck1") none "5").2.members
      = dbCreator.members ++ [⟨5, 1, "admin"⟩] :=
  ⟨by decide,
   (getUserRole_creator_admin dbCreator "ck1" none "5" 5 ⟨1, "ck1", "a@b.c"⟩
      ⟨5, "Acme", 1⟩ (by decide) (by decide) (by decide) rfl rfl).1,
   (getUserRole_creator_admin dbCreator "ck1" none "5" 5 ⟨1, "ck1", "a@b.c"⟩
      ⟨5, "Acme", 1⟩ (by decide) (by decide) (by decide) rfl rfl).2.2.2 (by decide)⟩

/-- Claim C9: `getUserRole` never throws.  Unauthenticated callers, a
malformed (non-numeric) organization id, a missing Clerk email, a failing
user creation and a failing membership upsert all produce a `none` role
through the catch-all handler — and a fault-free principal with no
relation to the organization produces a `none` role too, so the two cases
are indistinguishable to the caller. -/
theorem getUserRole_never_throws (db : DB) (f : Faults) (cid : String)
    (ce : Option String) (orgIdStr : String) :
    (getUserRole db f none ce orgIdStr = (none, db)) ∧
    (parseBigInt orgIdStr = none →
      getUserRole db f (some cid) ce orgIdStr = (none, db)) ∧
    (db.users.find? (fun x => x.clerk_id == cid) = none → ce = none →
      (getUserRole db f (some cid) ce orgIdStr).1 = none) ∧
    (db.users.find? (fun x => x.clerk_id == cid) = none → f.createUserFails = true →
      (getUserRole db f (some cid) ce orgIdStr).1 = none) ∧
    (∀ oid u db1, parseBigInt orgIdStr = some oid →
      getOrCreateUser db f cid ce = .ok (u, db1) →
      (db1.organizations.find? (fun o => o.org_id == oid && o.created_by == u.user_id)).isSome →
      f.upsertFails = true →
      (getUserRole db f (some cid) ce orgIdStr).1 = none) ∧
    (∀ oid u db1, parseBigInt orgIdStr = some oid →
      getOrCreateUser db f cid ce = .ok (u, db1) →
      db1.organizations.find? (fun o => o.org_id == oid && o.created_by == u.user_id) = none →
      findMember db1.members oid u.user_id = none →
      (getUserRole db f (some cid) ce orgIdStr).1 = none) := by
  refine ⟨rfl, ?_, ?_, ?_, ?_, ?_⟩
  · intro hparse
    simp only [getUserRole, getUserRoleAux, hparse]
  · intro huser hce
    simp only [getUserRole, getUserRoleAux, getOrCreateUser, huser, hce]
    cases hparse : parseBigInt orgIdStr <;> simp
  · intro huser hfail
    simp only [getUserRole, getUserRoleAux, getOrCreateUser, huser, hfail]
    cases hparse : parseBigInt orgIdStr <;> cases hce : ce <;> simp
  · intro oid u db1 hparse hgoc hfind hfail
    obtain ⟨o2, ho2⟩ := Option.isSome_iff_exists.mp hfind
    simp only [getUserRole, getUserRoleAux, hparse, hgoc, ho2, hfail]
    simp
  · intro oid u db1 hparse hgoc hfind hmem
    simp only [getUserRole, getUserRoleAux, hparse, hgoc, hfind, hmem]

/-- Witness for C9: a non-numeric organization id makes `getUserRole`
return a `none` role instead of throwing. -/
theorem getUserRole_never_throws_witness :
    parseBigInt "abc" = none ∧
    getUserRole emptyDB noFaults (some "ck1") none "abc" = (none, emptyDB) :=
  ⟨by decide,
   (getUserRole_never_throws emptyDB noFaults "ck1" none "abc").2.1 (by decide)⟩

end Viona

namespace Viona

/-- Prisma `productStock.findFirst` for a (product, warehouse) pair. -/
def findStock (stocks : List StockRow) (p w : Int) : Option StockRow :=
  stocks.find? (fun s => s.product_id == p && s.warehouse_id == w)

/-- Prisma `productStock.update` keyed by `stock_id`: set that row's
quantity. -/
def updateStockQty (stocks : List StockRow) (sid : Nat) (q : Int) : List StockRow :=
  stocks.map (fun s => if s.stock_id == sid then { s with quantity := q } else s)

/-- Stock quantity of a product in a warehouse, `0` when no row exists. -/
def qtyOf (db : DB) (p w : Int) : Int :=
  match findStock db.productStocks p w with
  | some s => s.quantity
  | none => 0

/-- Contribution of one stock row to a product's total. -/
def stockContrib (p : Int) (s : StockRow) : Int :=
  if s.product_id = p then s.quantity else 0

/-- Total stock of a product summed over all warehouses. -/
def prodTotal (db : DB) (p : Int) : Int :=
  (db.productStocks.map (stockContrib p)).sum

/-- Well-formedness: the auto-increment stock primary keys are distinct. -/
@[reducible] def StocksWF (db : DB) : Prop :=
  (db.productStocks.map (fun s => s.stock_id)).Nodup

/-- Shallow embedding of the `transferStock` server action
(`app/inventory/actions.ts`), after the auth / membership / permission
gates: reject a non-positive quantity, load the source stock row, fail
when it is absent or short, decrement it, increment or create the
destination row, and append the paired `out`/`in` ledger entries. -/
def transferStock (db : DB) (p fromW toW : Int) (qty : Int) (reason : String)
    (notes : Option String) (uid : Nat) : Except TxErr DB :=
  if qty ≤ 0 then .error (.validationErr "Quantity must be positive")
  else
    match findStock db.productStocks p fromW with
    | none => .error .insufficientStock
    | some src =>
      if src.quantity < qty then .error .insufficientStock
      else
        let stocks1 := updateStockQty db.productStocks src.stock_id (src.quantity - qty)
        let outMv : Movement :=
          ⟨p, fromW, "out", qty, s!"Transfer to warehouse {toW}: {reason}", notes, uid⟩
        let inMv : Movement :=
          ⟨p, toW, "in", qty, s!"Transfer from warehouse {fromW}: {reason}", notes, uid⟩
        match findStock stocks1 p toW with
        | some dst =>
          .ok { db with
            productStocks := updateStockQty stocks1 dst.stock_id (dst.quantity + qty),
            stockMovements := db.stockMovements ++ [outMv, inMv] }
        | none =>
          .ok { db with
            productStocks := stocks1 ++ [⟨db.nextStockId, p, toW, qty⟩],
            nextStockId := db.nextStockId + 1,
            stockMovements := db.stockMovements ++ [outMv, inMv] }

/-- Shallow embedding of the `updateProductStock` server action
(`app/inventory/actions.ts`): load the current quantity (0 if no row),
add the signed adjustment, fail when negative, upsert the stock row and
append one ledger entry typed by the sign of the adjustment. -/
def updateProductStock (db : DB) (p w : Int) (adjustment : Int) (uid : Nat) :
    Except TxErr DB :=
  match findStock db.productStocks p w with
  | some existing =>
    let newQuantity := existing.quantity + adjustment
    if newQuantity < 0 then .error .insufficientStock
    else
      .ok { db with
        productStocks := updateStockQty db.productStocks existing.stock_id newQuantity,
        stockMovements := db.stockMovements ++
          [⟨p, w, if 0 < adjustment then "in" else "out", |adjustment|,
            if 0 < adjustment then "Stock increase" else "Stock decrease", none, uid⟩] }
  | none =>
    let newQuantity := (0 : Int) + adjustment
    if newQuantity < 0 then .error .insufficientStock
    else
      .ok { db with
        productStocks := db.productStocks ++ [⟨db.nextStockId, p, w, max 0 adjustment⟩],
        nextStockId := db.nextStockId + 1,
        stockMovements := db.stockMovements ++
          [⟨p, w, if 0 < adjustment then "in" else "out", |adjustment|,
            if 0 < adjustment then "Stock increase" else "Stock decrease", none, uid⟩] }

end Viona

namespace Viona

theorem findStock_updateStockQty (stocks : List StockRow) (sid : Nat) (q : Int)
    (p w : Int) :
    findStock (updateStockQty stocks sid q) p w =
      (findStock stocks p w).map
        (fun s => if s.stock_id == sid then { s with quantity := q } else s) := by
  unfold findStock updateStockQty
  rw [List.find?_map]
  have hcomp : ((fun s : StockRow => s.product_id == p && s.warehouse_id == w) ∘
      (fun s : StockRow => if s.stock_id == sid then { s with quantity := q } else s)) =
      (fun s : StockRow => s.product_id == p && s.warehouse_id == w) := by
    funext x
    by_cases hx : x.stock_id == sid <;> simp [Function.comp, hx]
  rw [hcomp]

theorem updateStockQty_ids (stocks : List StockRow) (sid : Nat) (q : Int) :
    (updateStockQty stocks sid q).map (fun s => s.stock_id) =
      stocks.map (fun s => s.stock_id) := by
  unfold updateStockQty
  rw [List.map_map]
  have hcomp : ((fun s : StockRow => s.stock_id) ∘
      (fun s : StockRow => if s.stock_id == sid then { s with quantity := q } else s)) =
      (fun s : StockRow => s.stock_id) := by
    funext x
    by_cases hx : x.stock_id == sid <;> simp [Function.comp, hx]
  rw [hcomp]

theorem updateStockQty_of_not_mem (stocks : List StockRow) (sid : Nat) (q : Int)
    (h : ∀ x ∈ stocks, x.stock_id ≠ sid) : updateStockQty stocks sid q = stocks := by
  induction stocks with
  | nil => rfl
  | cons a l ih =>
    unfold updateStockQty
    simp only [List.map_cons]
    rw [if_neg (by simp [h a (List.mem_cons_self a l)])]
    have := ih (fun x hx => h x (List.mem_cons_of_mem a hx))
    unfold updateStockQty at this
    rw [this]

theorem sum_updateStockQty (stocks : List StockRow) (s : StockRow) (q : Int) (p : Int)
    (hnd : (stocks.map (fun x => x.stock_id)).Nodup) (hmem : s ∈ stocks) :
    ((updateStockQty stocks s.stock_id q).map (stockContrib p)).sum
      = (stocks.map (stockContrib p)).sum - stockContrib p s
        + (if s.product_id = p then q else 0) := by
  induction stocks with
  | nil => cases hmem
  | cons a l ih =>
    rw [List.map_cons, List.nodup_cons] at hnd
    rcases List.mem_cons.mp hmem with heq | hmem2
    · subst heq
      unfold updateStockQty
      simp only [List.map_cons]
      rw [if_pos (by simp)]
      have hrest : ∀ x ∈ l, x.stock_id ≠ s.stock_id := by
        intro x hx hcontra
        exact hnd.1 (hcontra ▸ List.mem_map_of_mem (fun y => y.stock_id) hx)
      have := updateStockQty_of_not_mem l s.stock_id q hrest
      unfold updateStockQty at this
      rw [this]
      simp only [List.map_cons, List.sum_cons, stockContrib]
      by_cases hp : s.product_id = p
      · simp only [stockContrib, if_pos hp]
        ring
      · simp only [stockContrib, if_neg hp]
        ring
    · have hne : a.stock_id ≠ s.stock_id := by
        intro hcontra
        exact hnd.1 (hcontra ▸ List.mem_map_of_mem (fun y => y.stock_id) hmem2)
      unfold updateStockQty
      simp only [List.map_cons]
      rw [if_neg (by simp [hne])]
      have := ih hnd.2 hmem2
      unfold updateStockQty at this
      simp only [List.map_cons, List.sum_cons]
      rw [this]
      ring

end Viona

namespace Viona

theorem findStock_fields (stocks : List StockRow) (p w : Int) (s : StockRow)
    (h : findStock stocks p w = some s) :
    s.product_id = p ∧ s.warehouse_id = w ∧ s ∈ stocks := by
  unfold findStock at h
  have hpred := List.find?_some h
  rw [Bool.and_eq_true] at hpred
  exact ⟨beq_iff_eq.mp hpred.1, beq_iff_eq.mp hpred.2, List.mem_of_find?_eq_some h⟩

theorem findStock_append (l1 l2 : List StockRow) (p w : Int) :
    findStock (l1 ++ l2) p w = (findStock l1 p w).or (findStock l2 p w) := by
  unfold findStock
  exact List.find?_append

/-- Claim C3 (amended: the source and destination warehouses must differ —
see the counterexample theorem for `from = to`): a successful transfer
with positive `qty`, distinct warehouses and a sufficiently stocked source
row decreases the source stock by exactly `qty`, increases the destination
stock by exactly `qty` (creating the row at `qty` when absent), appends
exactly the paired `out`/`in` ledger entries with quantity `qty`, and
preserves the product's total stock over all warehouses. -/
theorem transferStock_moves_exactly_qty (db : DB) (p fromW toW qty : Int)
    (reason : String) (notes : Option String) (uid : Nat) (src : StockRow)
    (hWF : StocksWF db) (hqty : 0 < qty) (hne : fromW ≠ toW)
    (hsrc : findStock db.productStocks p fromW = some src)
    (hge : qty ≤ src.quantity) :
    ∃ db2, transferStock db p fromW toW qty reason notes uid = .ok db2 ∧
      qtyOf db2 p fromW = qtyOf db p fromW - qty ∧
      qtyOf db2 p toW = qtyOf db p toW + qty ∧
      prodTotal db2 p = prodTotal db p ∧
      db2.stockMovements = db.stockMovements ++
        [⟨p, fromW, "out", qty, s!"Transfer to warehouse {toW}: {reason}", notes, uid⟩,
         ⟨p, toW, "in", qty, s!"Transfer from warehouse {fromW}: {reason}", notes, uid⟩] := by
  obtain ⟨hsrc_p, hsrc_w, hsrc_mem⟩ := findStock_fields _ _ _ _ hsrc
  have h1 : ¬(qty ≤ 0) := by omega
  have h2 : ¬(src.quantity < qty) := by omega
  have hfind1from : findStock (updateStockQty db.productStocks src.stock_id (src.quantity - qty)) p fromW
      = some { src with quantity := src.quantity - qty } := by
    rw [findStock_updateStockQty, hsrc]
    simp
  have hfind1to : findStock (updateStockQty db.productStocks src.stock_id (src.quantity - qty)) p toW
      = (findStock db.productStocks p toW).map
          (fun s => if s.stock_id == src.stock_id then { s with quantity := src.quantity - qty } else s) :=
    findStock_updateStockQty _ _ _ _ _
  have hnd1 : ((updateStockQty db.productStocks src.stock_id (src.quantity - qty)).map
      (fun s => s.stock_id)).Nodup := by
    rw [updateStockQty_ids]
    exact hWF
  cases hdst : findStock db.productStocks p toW with
  | some dst =>
    obtain ⟨hdst_p, hdst_w, hdst_mem⟩ := findStock_fields _ _ _ _ hdst
    have hne_rows : dst ≠ src := by
      intro h
      apply hne
      rw [← hsrc_w, ← hdst_w, h]
    have hid_ne : dst.stock_id ≠ src.stock_id := by
      intro h
      exact hne_rows (List.inj_on_of_nodup_map hWF hdst_mem hsrc_mem h)
    have hfind1to2 : findStock (updateStockQty db.productStocks src.stock_id (src.quantity - qty)) p toW
        = some dst := by
      rw [hfind1to, hdst]
      simp [hid_ne]
    have hdst_mem1 : dst ∈ updateStockQty db.productStocks src.stock_id (src.quantity - qty) := by
      unfold updateStockQty
      have hmm := List.mem_map_of_mem
        (fun s : StockRow => if s.stock_id == src.stock_id then { s with quantity := src.quantity - qty } else s)
        hdst_mem
      simpa [hid_ne] using hmm
    refine ⟨{ db with
        productStocks := updateStockQty
          (updateStockQty db.productStocks src.stock_id (src.quantity - qty))
          dst.stock_id (dst.quantity + qty),
        stockMovements := db.stockMovements ++
          [⟨p, fromW, "out", qty, s!"Transfer to warehouse {toW}: {reason}", notes, uid⟩,
           ⟨p, toW, "in", qty, s!"Transfer from warehouse {fromW}: {reason}", notes, uid⟩] },
      ?_, ?_, ?_, ?_, rfl⟩
    · simp only [transferStock, hsrc, if_neg h1, if_neg h2, hfind1to2]
    · unfold qtyOf
      rw [findStock_updateStockQty, hfind1from, hsrc]
      have hid_ne2 : src.stock_id ≠ dst.stock_id := fun h => hid_ne h.symm
      simp [hid_ne2]
    · unfold qtyOf
      rw [findStock_updateStockQty, hfind1to2, hdst]
      simp
    · unfold prodTotal
      have hs1 := sum_updateStockQty db.productStocks src (src.quantity - qty) p hWF hsrc_mem
      have hs2 := sum_updateStockQty
        (updateStockQty db.productStocks src.stock_id (src.quantity - qty))
        dst (dst.quantity + qty) p hnd1 hdst_mem1
      simp only [hs2, hs1, stockContrib, if_pos hsrc_p, if_pos hdst_p]
      ring
  | none =>
    have hfind1to2 : findStock (updateStockQty db.productStocks src.stock_id (src.quantity - qty)) p toW
        = none := by
      rw [hfind1to, hdst]
      rfl
    refine ⟨{ db with
        productStocks := updateStockQty db.productStocks src.stock_id (src.quantity - qty)
          ++ [⟨db.nextStockId, p, toW, qty⟩],
        nextStockId := db.nextStockId + 1,
        stockMovements := db.stockMovements ++
          [⟨p, fromW, "out", qty, s!"Transfer to warehouse {toW}: {reason}", notes, uid⟩,
           ⟨p, toW, "in", qty, s!"Transfer from warehouse {fromW}: {reason}", notes, uid⟩] },
      ?_, ?_, ?_, ?_, rfl⟩
    · simp only [transferStock, hsrc, if_neg h1, if_neg h2, hfind1to2]
    · unfold qtyOf
      rw [findStock_append, hfind1from, Option.or_some, hsrc]
    · unfold qtyOf
      rw [findStock_append, hfind1to2, Option.none_or, hdst]
      unfold findStock
      simp
    · unfold prodTotal
      have hs1 := sum_updateStockQty db.productStocks src (src.quantity - qty) p hWF hsrc_mem
      simp only [List.map_append, List.sum_append, hs1, stockContrib, if_pos hsrc_p]
      simp only [List.map_cons, List.map_nil, List.sum_cons, List.sum_nil, stockContrib]
      norm_num

end Viona

namespace Viona

/-- Concrete database for the C3 witness: product 1 has 10 units in
warehouse 1 and none in warehouse 2. -/
def dbTransfer : DB :=
  { emptyDB with productStocks := [⟨0, 1, 1, 10⟩], nextStockId := 1 }

/-- Witness for C3 (amended) at a concrete transfer of 4 units between the
two distinct warehouses 1 and 2. -/
theorem transferStock_moves_exactly_qty_witness :
    StocksWF dbTransfer ∧ (0 : Int) < 4 ∧ (1 : Int) ≠ 2 ∧
    (∃ db2, transferStock dbTransfer 1 1 2 4 "restock" none 7 = .ok db2 ∧
      qtyOf db2 1 1 = qtyOf dbTransfer 1 1 - 4 ∧
      qtyOf db2 1 2 = qtyOf dbTransfer 1 2 + 4 ∧
      prodTotal db2 1 = prodTotal dbTransfer 1) :=
  ⟨by decide, by decide, by decide, by
    obtain ⟨db2, hrun, hfrom, hto, htot, hmv⟩ :=
      transferStock_moves_exactly_qty dbTransfer 1 1 2 4 "restock" none 7
        ⟨0, 1, 1, 10⟩ (by decide) (by decide) (by decide) (by decide) (by decide)
    exact ⟨db2, hrun, hfrom, hto, htot⟩⟩

/-- Concrete database for the C3 counterexample: product 1 has 10 units in
warehouse 1. -/
def dbSameA : DB :=
  { emptyDB with productStocks := [⟨0, 1, 1, 10⟩], nextStockId := 1 }

/-- Counterexample to C3 as frozen: when the source and destination
warehouse coincide (`from = to = 1`), the call succeeds, its premises hold
(positive quantity, source row present with quantity 10 ≥ 5), yet the
source warehouse's stock does not decrease by the transferred quantity —
it ends unchanged at 10, not 5. -/
theorem transferStock_same_warehouse_counterexample :
    ((0 : Int) < 5 ∧ findStock dbSameA.productStocks 1 1 = some ⟨0, 1, 1, 10⟩ ∧
      (5 : Int) ≤ 10) ∧
    (transferStock dbSameA 1 1 1 5 "mv" none 7).isOk = true ∧
    ¬ (qtyOf (applyTx dbSameA (transferStock dbSameA 1 1 1 5 "mv" none 7)) 1 1
        = qtyOf dbSameA 1 1 - 5) := by decide

/-- Claim C4: a transfer whose source stock row is absent, or whose source
quantity is below the requested positive quantity, fails with the
insufficient-stock error; the error result rolls the transaction back, so
both warehouses' stock and the ledger are unchanged. -/
theorem transferStock_insufficient_fails (db : DB) (p fromW toW qty : Int)
    (reason : String) (notes : Option String) (uid : Nat)
    (hqty : 0 < qty)
    (hshort : ∀ src, findStock db.productStocks p fromW = some src →
      src.quantity < qty) :
    transferStock db p fromW toW qty reason notes uid = .error .insufficientStock ∧
    applyTx db (transferStock db p fromW toW qty reason notes uid) = db := by
  have h1 : ¬(qty ≤ 0) := by omega
  cases hs : findStock db.productStocks p fromW with
  | none =>
    constructor
    · simp only [transferStock, hs, if_neg h1]
    · simp only [applyTx, transferStock, hs, if_neg h1]
  | some src =>
    have hlt := hshort src hs
    constructor
    · simp only [transferStock, hs, if_neg h1, if_pos hlt]
    · simp only [applyTx, transferStock, hs, if_neg h1, if_pos hlt]

/-- Concrete database for the C4 witness: only 2 units in the source
warehouse. -/
def dbLow : DB :=
  { emptyDB with productStocks := [⟨0, 1, 1, 2⟩], nextStockId := 1 }

/-- Witness for C4: transferring 5 units out of a warehouse holding 2
fails and leaves the database unchanged. -/
theorem transferStock_insufficient_fails_witness :
    (0 : Int) < 5 ∧
    transferStock dbLow 1 1 2 5 "mv" none 7 = .error .insufficientStock ∧
    applyTx dbLow (transferStock dbLow 1 1 2 5 "mv" none 7) = dbLow :=
  ⟨by decide,
   (transferStock_insufficient_fails dbLow 1 1 2 5 "mv" none 7 (by decide)
      (by
        intro src hsrc
        have hfind : findStock dbLow.productStocks 1 1 = some ⟨0, 1, 1, 2⟩ := by decide
        rw [hfind] at hsrc
        cases hsrc
        decide)).1,
   (transferStock_insufficient_fails dbLow 1 1 2 5 "mv" none 7 (by decide)
      (by
        intro src hsrc
        have hfind : findStock dbLow.productStocks 1 1 = some ⟨0, 1, 1, 2⟩ := by decide
        rw [hfind] at hsrc
        cases hsrc
        decide)).2⟩

/-- Concrete database for the C5 theorem: product 1 has 9 units in
warehouse 2. -/
def dbSameB : DB :=
  { emptyDB with productStocks := [⟨0, 1, 2, 9⟩], nextStockId := 1 }

/-- Claim C5 concerns a guard that the source does not implement:
`transferStock` never compares the two warehouse ids, so a transfer with
`from = to = 2` succeeds instead of failing — the stock quantity ends
unchanged and two ledger entries are still appended. -/
theorem transferStock_no_same_warehouse_guard :
    (transferStock dbSameB 1 2 2 4 "mv" none 7).isOk = true ∧
    qtyOf (applyTx dbSameB (transferStock dbSameB 1 2 2 4 "mv" none 7)) 1 2 = 9 ∧
    (applyTx dbSameB (transferStock dbSameB 1 2 2 4 "mv" none 7)).stockMovements.length
      = dbSameB.stockMovements.length + 2 := by decide

/-- Claim C6: `updateProductStock` with signed adjustment `d` on a pair
whose current quantity is `q` (0 when no row exists) fails with the
insufficient-stock error when `q + d < 0` (rolling the state back), and
otherwise upserts the stock row to `q + d` and appends exactly one ledger
entry whose type is `in` for `d > 0` and `out` for `d < 0`, with quantity
`|d|`. -/
theorem updateProductStock_spec (db : DB) (p w d : Int) (uid : Nat) :
    (qtyOf db p w + d < 0 →
      updateProductStock db p w d uid = .error .insufficientStock ∧
      applyTx db (updateProductStock db p w d uid) = db) ∧
    (0 ≤ qtyOf db p w + d →
      ∃ db2 mv, updateProductStock db p w d uid = .ok db2 ∧
        qtyOf db2 p w = qtyOf db p w + d ∧
        db2.stockMovements = db.stockMovements ++ [mv] ∧
        (0 < d → mv.type = "in") ∧ (d < 0 → mv.type = "out") ∧
        mv.quantity = |d| ∧ mv.product_id = p ∧ mv.warehouse_id = w) := by
  cases hs : findStock db.productStocks p w with
  | some existing =>
    have hq : qtyOf db p w = existing.quantity := by
      unfold qtyOf
      rw [hs]
    constructor
    · intro hneg
      rw [hq] at hneg
      constructor
      · simp only [updateProductStock, hs, if_pos hneg]
      · simp only [applyTx, updateProductStock, hs, if_pos hneg]
    · intro hpos
      rw [hq] at hpos
      have hnneg : ¬(existing.quantity + d < 0) := by omega
      refine ⟨{ db with
          productStocks := updateStockQty db.productStocks existing.stock_id
            (existing.quantity + d),
          stockMovements := db.stockMovements ++
            [⟨p, w, if 0 < d then "in" else "out", |d|,
              if 0 < d then "Stock increase" else "Stock decrease", none, uid⟩] },
        ⟨p, w, if 0 < d then "in" else "out", |d|,
          if 0 < d then "Stock increase" else "Stock decrease", none, uid⟩,
        ?_, ?_, rfl, ?_, ?_, rfl, rfl, rfl⟩
      · simp only [updateProductStock, hs, if_neg hnneg]
      · unfold qtyOf
        rw [findStock_updateStockQty, hs]
        simp
      · intro hd
        simp [hd]
      · intro hd
        rw [if_neg (by omega)]
  | none =>
    have hq : qtyOf db p w = 0 := by
      unfold qtyOf
      rw [hs]
    constructor
    · intro hneg
      rw [hq] at hneg
      have hneg2 : (0 : Int) + d < 0 := by omega
      constructor
      · simp only [updateProductStock, hs, if_pos hneg2]
      · simp only [applyTx, updateProductStock, hs, if_pos hneg2]
    · intro hpos
      rw [hq] at hpos
      have hnneg : ¬((0 : Int) + d < 0) := by omega
      have hmax : max 0 d = d := by omega
      refine ⟨{ db with
          productStocks := db.productStocks ++ [⟨db.nextStockId, p, w, max 0 d⟩],
          nextStockId := db.nextStockId + 1,
          stockMovements := db.stockMovements ++
            [⟨p, w, if 0 < d then "in" else "out", |d|,
              if 0 < d then "Stock increase" else "Stock decrease", none, uid⟩] },
        ⟨p, w, if 0 < d then "in" else "out", |d|,
          if 0 < d then "Stock increase" else "Stock decrease", none, uid⟩,
        ?_, ?_, rfl, ?_, ?_, rfl, rfl, rfl⟩
      · simp only [updateProductStock, hs, if_neg hnneg]
      · unfold qtyOf
        rw [findStock_append, hs, Option.none_or, hmax]
        unfold findStock
        simp
      · intro hd
        simp [hd]
      · intro hd
        rw [if_neg (by omega)]

/-- Concrete database for the C6 witness: 5 units of product 1 in
warehouse 1, matching the end-to-end scenario of the spec. -/
def dbAdj : DB :=
  { emptyDB with productStocks := [⟨0, 1, 1, 5⟩], nextStockId := 1 }

/-- Witness for C6: an adjustment of −3 on stock 5 succeeds, leaves
quantity 2 and appends one `out` ledger entry of quantity 3. -/
theorem updateProductStock_spec_witness :
    (0 : Int) ≤ qtyOf dbAdj 1 1 + (-3) ∧
    (∃ db2 mv, updateProductStock dbAdj 1 1 (-3) 7 = .ok db2 ∧
      qtyOf db2 1 1 = qtyOf dbAdj 1 1 + (-3) ∧
      db2.stockMovements = dbAdj.stockMovements ++ [mv] ∧
      (0 < (-3 : Int) → mv.type = "in") ∧ ((-3 : Int) < 0 → mv.type = "out") ∧
      mv.quantity = |(-3 : Int)| ∧ mv.product_id = 1 ∧ mv.warehouse_id = 1) :=
  ⟨by decide,
   (updateProductStock_spec dbAdj 1 1 (-3) 7).2 (by decide)⟩

end Viona

namespace Viona

/-- One deletion issued by the `deleteOrganization` transaction, in the
order the source issues them. -/
inductive DelStep where
  | delOrderItems
  | delOrders
  | delPrices
  | delStocks
  | delProducts
  | delWarehouses
  | delInvites
  | delMembers
  | delOrganization
deriving Repr, DecidableEq

/-- The strict dependency order of a full force-deletion. -/
def fullDeleteOrder : List DelStep :=
  [.delOrderItems, .delOrders, .delPrices, .delStocks, .delProducts,
   .delWarehouses, .delInvites, .delMembers, .delOrganization]

/-- Shallow embedding of `deleteOrganization`
(`app/organization/actions.ts`) after the auth / role gates: count the
dependent warehouses, products and orders; with dependents and no `force`
fail with a conflict error carrying the three counts; otherwise run one
transaction that — when `force` is set and dependents exist — deletes
order items, orders, product prices, product stock, products and
warehouses of the organization in that order, then always deletes its
invites and members, and finally the organization row itself (failing if
absent).  The returned trace lists the deletions in the order issued. -/
def deleteOrganization (db : DB) (oid : Int) (force : Bool) :
    Except TxErr (DB × List DelStep) :=
  let wCount := (db.warehouses.filter (fun w => w.org_id == oid)).length
  let pCount := (db.products.filter (fun q => q.org_id == oid)).length
  let oCount := (db.orders.filter (fun o => o.org_id == oid)).length
  if (0 < wCount ∨ 0 < pCount ∨ 0 < oCount) ∧ force = false then
    .error (.conflictDependents wCount pCount oCount)
  else
    let step1 :=
      if force = true ∧ (0 < wCount ∨ 0 < pCount ∨ 0 < oCount) then
        let dbA := { db with orderItems := (db.orderItems.filter
          (fun i => !(db.orders.any (fun o => o.order_id == i.order_id && o.org_id == oid)))) }
        let dbB := { dbA with orders := dbA.orders.filter (fun o => !(o.org_id == oid)) }
        let dbC := { dbB with productPrices := (dbB.productPrices.filter
          (fun r => !(dbB.products.any (fun q => q.product_id == r.product_id && q.org_id == oid)))) }
        let dbD := { dbC with productStocks := (dbC.productStocks.filter
          (fun s => !(dbC.products.any (fun q => q.product_id == s.product_id && q.org_id == oid)))) }
        let dbE := { dbD with products := dbD.products.filter (fun q => !(q.org_id == oid)) }
        let dbF := { dbE with warehouses := dbE.warehouses.filter (fun w => !(w.org_id == oid)) }
        (dbF, [DelStep.delOrderItems, DelStep.delOrders, DelStep.delPrices,
               DelStep.delStocks, DelStep.delProducts, DelStep.delWarehouses])
      else (db, ([] : List DelStep))
    let db1 := step1.1
    let db2 := { db1 with
      invites := db1.invites.filter (fun i => !(i.org_id == oid)),
      members := db1.members.filter (fun m => !(m.org_id == oid)) }
    if db2.organizations.any (fun o => o.org_id == oid) then
      .ok ({ db2 with organizations := db2.organizations.filter (fun o => !(o.org_id == oid)) },
        step1.2 ++ [DelStep.delInvites, DelStep.delMembers, DelStep.delOrganization])
    else .error .notFound

/-- Claim C7: deleting an organization that still owns a warehouse,
product or order fails without `force`, with a conflict error enumerating
the three dependent counts (the error result models the untouched
database); with `force` it succeeds inside one transaction whose deletions
are issued in the strict order order-items, orders, product-prices,
product-stock, products, warehouses, invites, members, organization, after
which no row of the organization (nor of its orders' items, nor of its
products' stock and price rows) remains, while rows of other
organizations survive. -/
theorem deleteOrganization_spec (db : DB) (oid : Int)
    (hdep : 0 < (db.warehouses.filter (fun w => w.org_id == oid)).length ∨
      0 < (db.products.filter (fun q => q.org_id == oid)).length ∨
      0 < (db.orders.filter (fun o => o.org_id == oid)).length)
    (horg : ∃ o ∈ db.organizations, o.org_id = oid) :
    (deleteOrganization db oid false = .error (.conflictDependents
      (db.warehouses.filter (fun w => w.org_id == oid)).length
      (db.products.filter (fun q => q.org_id == oid)).length
      (db.orders.filter (fun o => o.org_id == oid)).length)) ∧
    (∃ db2, deleteOrganization db oid true = .ok (db2, fullDeleteOrder) ∧
      (∀ o ∈ db2.organizations, o.org_id ≠ oid) ∧
      (∀ m ∈ db2.members, m.org_id ≠ oid) ∧
      (∀ i ∈ db2.invites, i.org_id ≠ oid) ∧
      (∀ w ∈ db2.warehouses, w.org_id ≠ oid) ∧
      (∀ q ∈ db2.products, q.org_id ≠ oid) ∧
      (∀ o ∈ db2.orders, o.org_id ≠ oid) ∧
      (∀ it ∈ db2.orderItems, ∀ o ∈ db.orders,
        o.org_id = oid → o.order_id ≠ it.order_id) ∧
      (∀ s ∈ db2.productStocks, ∀ q ∈ db.products,
        q.org_id = oid → q.product_id ≠ s.product_id) ∧
      (∀ r ∈ db2.productPrices, ∀ q ∈ db.products,
        q.org_id = oid → q.product_id ≠ r.product_id) ∧
      (∀ o ∈ db.organizations, o.org_id ≠ oid → o ∈ db2.organizations) ∧
      (∀ m ∈ db.members, m.org_id ≠ oid → m ∈ db2.members) ∧
      (∀ w ∈ db.warehouses, w.org_id ≠ oid → w ∈ db2.warehouses) ∧
      (∀ q ∈ db.products, q.org_id ≠ oid → q ∈ db2.products)) := by
  obtain ⟨og, hog, hogid⟩ := horg
  have hany : db.organizations.any (fun o => o.org_id == oid) = true :=
    List.any_eq_true.mpr ⟨og, hog, by simp [hogid]⟩
  constructor
  · simp only [deleteOrganization, and_true]
    rw [if_pos hdep]
  · refine ⟨{ db with
      orderItems := (db.orderItems.filter
        (fun i => !(db.orders.any (fun o => o.order_id == i.order_id && o.org_id == oid)))),
      orders := db.orders.filter (fun o => !(o.org_id == oid)),
      productPrices := (db.productPrices.filter
        (fun r => !(db.products.any (fun q => q.product_id == r.product_id && q.org_id == oid)))),
      productStocks := (db.productStocks.filter
        (fun s => !(db.products.any (fun q => q.product_id == s.product_id && q.org_id == oid)))),
      products := db.products.filter (fun q => !(q.org_id == oid)),
      warehouses := db.warehouses.filter (fun w => !(w.org_id == oid)),
      invites := db.invites.filter (fun i => !(i.org_id == oid)),
      members := db.members.filter (fun m => !(m.org_id == oid)),
      organizations := db.organizations.filter (fun o => !(o.org_id == oid)) },
      ?_, ?_, ?_, ?_, ?_, ?_, ?_, ?_, ?_, ?_, ?_, ?_, ?_, ?_⟩
    · simp only [deleteOrganization, Bool.true_eq_false, and_false, if_false, true_and]
      rw [if_pos hdep, if_pos hany]
      rfl
    · intro x hx
      rw [List.mem_filter] at hx
      simpa using hx.2
    · intro x hx
      rw [List.mem_filter] at hx
      simpa using hx.2
    · intro x hx
      rw [List.mem_filter] at hx
      simpa using hx.2
    · intro x hx
      rw [List.mem_filter] at hx
      simpa using hx.2
    · intro x hx
      rw [List.mem_filter] at hx
      simpa using hx.2
    · intro x hx
      rw [List.mem_filter] at hx
      simpa using hx.2
    · intro it hit o ho hoo heq
      rw [List.mem_filter] at hit
      have h2 := hit.2
      rw [Bool.not_eq_true'] at h2
      rw [List.any_eq_false] at h2
      exact h2 o ho (by simp [heq, hoo])
    · intro s hs q hq hqo heq
      rw [List.mem_filter] at hs
      have h2 := hs.2
      rw [Bool.not_eq_true'] at h2
      rw [List.any_eq_false] at h2
      exact h2 q hq (by simp [heq, hqo])
    · intro r hr q hq hqo heq
      rw [List.mem_filter] at hr
      have h2 := hr.2
      rw [Bool.not_eq_true'] at h2
      rw [List.any_eq_false] at h2
      exact h2 q hq (by simp [heq, hqo])
    · intro x hx hne
      exact List.mem_filter.mpr ⟨hx, by simp [hne]⟩
    · intro x hx hne
      exact List.mem_filter.mpr ⟨hx, by simp [hne]⟩
    · intro x hx hne
      exact List.mem_filter.mpr ⟨hx, by simp [hne]⟩
    · intro x hx hne
      exact List.mem_filter.mpr ⟨hx, by simp [hne]⟩

/-- Concrete database for the C7 witness: one organization (id 5) with a
member, an invite, a warehouse, a product with one stock and one price
row, and an order with one item. -/
def dbOrg : DB :=
  { emptyDB with
    users := [⟨1, "ck1", "a@b.c"⟩],
    organizations := [⟨5, "Acme", 1⟩],
    members := [⟨5, 1, "admin"⟩],
    invites := [⟨5, "x@y.z", "reader", "tok1", "pending", some 100⟩],
    warehouses := [⟨11, 5, "Main", "addr"⟩],
    products := [⟨21, 5, "Widget", "A-1", none, none, "active", 1, none⟩],
    productStocks := [⟨0, 21, 11, 5⟩],
    productPrices := [⟨0, 21, 999, none, 0, none⟩],
    orders := [⟨31, 5⟩],
    orderItems := [⟨41, 31, 21⟩],
    nextUserId := 2, nextWarehouseId := 12, nextProductId := 22,
    nextStockId := 1, nextPriceId := 1 }

/-- Witness for C7: the concrete organization above cannot be deleted
without force, and force-deletion issues the nine deletions in dependency
order and empties its data. -/
theorem deleteOrganization_spec_witness :
    (0 < (dbOrg.warehouses.filter (fun w => w.org_id == 5)).length ∨
      0 < (dbOrg.products.filter (fun q => q.org_id == 5)).length ∨
      0 < (dbOrg.orders.filter (fun o => o.org_id == 5)).length) ∧
    deleteOrganization dbOrg 5 false = .error (.conflictDependents
      (dbOrg.warehouses.filter (fun w => w.org_id == 5)).length
      (dbOrg.products.filter (fun q => q.org_id == 5)).length
      (dbOrg.orders.filter (fun o => o.org_id == 5)).length) ∧
    (∃ db2, deleteOrganization dbOrg 5 true = .ok (db2, fullDeleteOrder) ∧
      (∀ o ∈ db2.organizations, o.org_id ≠ 5) ∧
      (∀ m ∈ db2.members, m.org_id ≠ 5)) :=
  ⟨by decide,
   (deleteOrganization_spec dbOrg 5 (by decide) (by decide)).1,
   by
    obtain ⟨db2, hrun, ho, hm, hrest⟩ :=
      (deleteOrganization_spec dbOrg 5 (by decide) (by decide)).2
    exact ⟨db2, hrun, ho, hm⟩⟩

end Viona

namespace Viona

/-- Status of the invite row a token resolves to. -/
def inviteStatusOf (db : DB) (token : String) : Option String :=
  (db.invites.find? (fun i => i.token == strTrim token)).map (fun i => i.status)

/-- Shallow embedding of `acceptInvite` (`app/organization/actions.ts`):
require an authenticated principal and a non-empty token; load the invite
by token; fail with the invalid-invite error unless its status is
`pending`; fail when the expiry is missing or passed; resolve the user;
fail on email mismatch or an existing membership; otherwise, in one
transaction, create the membership with the invite's role and flip the
invite's status to `accepted`, returning the organization id. -/
def acceptInvite (db : DB) (now : Nat) (clerkUserId : Option String)
    (clerkEmail : Option String) (f : Faults) (token : String) :
    Except TxErr (DB × Int) :=
  match clerkUserId with
  | none => .error .unauthorized
  | some cid =>
    if strTrim token = "" then .error (.validationErr "Invalid invitation token")
    else
      match db.invites.find? (fun i => i.token == strTrim token) with
      | none => .error .invalidInvite
      | some invite =>
        if invite.status ≠ "pending" then .error .invalidInvite
        else
          match invite.expires_at with
          | none => .error .expiredInvite
          | some expiry =>
            if expiry < now then .error .expiredInvite
            else
              match getOrCreateUser db f cid clerkEmail with
              | .error e => .error e
              | .ok (u, db1) =>
                if invite.email ≠ u.email then .error .emailMismatch
                else if db1.members.any (fun m => m.org_id == invite.org_id && m.user_id == u.user_id) then
                  .error .alreadyMember
                else
                  .ok ({ db1 with
                    members := db1.members ++ [⟨invite.org_id, u.user_id, invite.role⟩],
                    invites := (db1.invites.map (fun i =>
                      if i.token == strTrim token then { i with status := "accepted" } else i)) },
                    invite.org_id)

theorem getOrCreateUser_tables (db : DB) (f : Faults) (cid : String)
    (ce : Option String) (u : UserRec) (db1 : DB)
    (h : getOrCreateUser db f cid ce = .ok (u, db1)) :
    db1.invites = db.invites ∧ db1.members = db.members ∧
      db1.organizations = db.organizations := by
  unfold getOrCreateUser at h
  split at h
  · cases h
    exact ⟨rfl, rfl, rfl⟩
  · split at h
    · cases h
    · split at h
      · cases h
      · cases h
        exact ⟨rfl, rfl, rfl⟩

theorem find?_invite_map_accepted (invites : List Invite) (tok : String)
    (invite : Invite)
    (h : invites.find? (fun i => i.token == tok) = some invite) :
    (invites.map (fun i =>
        if i.token == tok then { i with status := "accepted" } else i)).find?
      (fun i => i.token == tok) = some { invite with status := "accepted" } := by
  rw [List.find?_map]
  have hcomp : ((fun i : Invite => i.token == tok) ∘ (fun i : Invite =>
      if i.token == tok then { i with status := "accepted" } else i)) =
      (fun i : Invite => i.token == tok) := by
    funext x
    by_cases hx : x.token == tok <;> simp [Function.comp, hx]
  rw [hcomp, h]
  have hpred := List.find?_some h
  simp only [Option.map_some']
  rw [if_pos hpred]

end Viona

namespace Viona

/-- Claim C8: invitation tokens are single-use.  A successful
`acceptInvite` atomically appends the membership carrying the invite's
role and sets the invite's status to `accepted`; afterwards any
authenticated `acceptInvite` on the same token fails with the
invalid-invite error (its status is no longer `pending`), and the error
result models the rolled-back transaction, so no membership is created. -/
theorem acceptInvite_single_use (db : DB) (now : Nat) (cid : String)
    (ce : Option String) (f : Faults) (token : String) (db2 : DB) (oid : Int)
    (hok : acceptInvite db now (some cid) ce f token = .ok (db2, oid)) :
    (∃ invite u db1,
      db.invites.find? (fun i => i.token == strTrim token) = some invite ∧
      invite.status = "pending" ∧
      getOrCreateUser db f cid ce = .ok (u, db1) ∧
      oid = invite.org_id ∧
      db2.members = db.members ++ [⟨invite.org_id, u.user_id, invite.role⟩] ∧
      inviteStatusOf db2 token = some "accepted") ∧
    (∀ now2 cid2 ce2 f2,
      acceptInvite db2 now2 (some cid2) ce2 f2 token = .error .invalidInvite) := by
  simp only [acceptInvite] at hok
  split at hok
  · cases hok
  next htrim =>
    split at hok
    · cases hok
    next invite hfind =>
      split at hok
      · cases hok
      next hstat =>
        split at hok
        · cases hok
        next expiry hexp =>
          split at hok
          · cases hok
          next hlt =>
            split at hok
            · cases hok
            next u db1 hgoc =>
              split at hok
              · cases hok
              next hmail =>
                split at hok
                · cases hok
                next hmemno =>
                  rw [Except.ok.injEq, Prod.mk.injEq] at hok
                  obtain ⟨hdb2, hoid⟩ := hok
                  subst hdb2
                  subst hoid
                  obtain ⟨hinv, hmem, _⟩ :=
                    getOrCreateUser_tables db f cid ce u db1 hgoc
                  constructor
                  · refine ⟨invite, u, db1, hfind, not_not.mp hstat, hgoc, rfl, ?_, ?_⟩
                    · simp [hmem]
                    · unfold inviteStatusOf
                      show ((db1.invites.map _).find? _).map _ = _
                      rw [hinv, find?_invite_map_accepted db.invites (strTrim token) invite hfind]
                      rfl
                  · intro now2 cid2 ce2 f2
                    have hfind2 : (db1.invites.map (fun i =>
                        if i.token == strTrim token then { i with status := "accepted" } else i)).find?
                        (fun i => i.token == strTrim token)
                        = some { invite with status := "accepted" } := by
                      rw [hinv]
                      exact find?_invite_map_accepted db.invites (strTrim token) invite hfind
                    simp only [acceptInvite, if_neg htrim, hfind2]
                    rw [if_pos (show ({ invite with status := "accepted" } : Invite).status ≠ "pending" by
                      show ("accepted" : String) ≠ "pending"
                      decide)]

end Viona

namespace Viona

/-- Concrete database for the C8 witness: one pending invite for the one
user's email. -/
def dbInv : DB :=
  { emptyDB with
    users := [⟨1, "ck1", "a@b.c"⟩],
    organizations := [⟨5, "Acme", 2⟩],
    invites := [⟨5, "a@b.c", "reader", "tok1", "pending", some 100⟩],
    nextUserId := 2 }

/-- The database after the C8 witness invite is accepted. -/
def dbInvAccepted : DB :=
  { dbInv with
    members := [⟨5, 1, "reader"⟩],
    invites := [⟨5, "a@b.c", "reader", "tok1", "accepted", some 100⟩] }

/-- Witness for C8: accepting the concrete pending invite succeeds, and
the second acceptance of the same token fails with the invalid-invite
error for every later caller. -/
theorem acceptInvite_single_use_witness :
    acceptInvite dbInv 50 (some "ck1") none noFaults "tok1"
      = .ok (dbInvAccepted, 5) ∧
    (∀ now2 cid2 ce2 f2,
      acceptInvite dbInvAccepted now2 (some cid2) ce2 f2 "tok1"
        = .error .invalidInvite) := by
  have hrun : acceptInvite dbInv 50 (some "ck1") none noFaults "tok1"
      = .ok (dbInvAccepted, 5) := by rfl
  exact ⟨hrun,
    (acceptInvite_single_use dbInv 50 "ck1" none noFaults "tok1"
      dbInvAccepted 5 hrun).2⟩

end Viona

namespace Viona

/-- Shallow embedding of `getOrCreateDefaultWarehouse`
(`app/inventory/actions.ts`): return the organization's first warehouse
whatever its name; only when the organization has no warehouse at all,
create one named `Default Warehouse`. -/
def getOrCreateDefaultWarehouse (db : DB) (oid : Int) : Warehouse × DB :=
  match db.warehouses.find? (fun w => w.org_id == oid) with
  | some w => (w, db)
  | none =>
    let w : Warehouse := ⟨db.nextWarehouseId, oid, "Default Warehouse", "Default Address"⟩
    (w, { db with
          warehouses := db.warehouses ++ [w],
          nextWarehouseId := db.nextWarehouseId + 1 })

/-- Shallow embedding of the `addProduct` transaction
(`app/inventory/actions.ts`) after the auth / role gates: validate name
and SKU, clamp stock and price to non-negative, reject a duplicate SKU in
the organization, then insert the product, resolve the default warehouse,
insert one stock row there and one open price row. -/
def addProduct (db : DB) (oid : Int) (name sku : String)
    (descr image : Option String) (stock price : Int) (uid : Nat) (now : Nat) :
    Except TxErr (DB × Int) :=
  if strTrim name = "" then .error (.validationErr "Product name is required")
  else if strTrim sku = "" then .error (.validationErr "Product SKU is required")
  else if db.products.any (fun q => q.sku == strTrim sku && q.org_id == oid) then
    .error .conflictSku
  else
    let imageUrl := match image with
      | some s => if strTrim s = "" then none else some (strTrim s)
      | none => none
    let stockQuantity := max 0 stock
    let retailPrice := max 0 price
    let prod : ProductRec := ⟨db.nextProductId, oid, strTrim name, strTrim sku,
      descr.map strTrim, imageUrl, "active", uid, none⟩
    let db1 := { db with
      products := db.products ++ [prod],
      nextProductId := db.nextProductId + 1 }
    let wres := getOrCreateDefaultWarehouse db1 oid
    let db2 := wres.2
    let srow : StockRow := ⟨db2.nextStockId, prod.product_id, wres.1.warehouse_id, stockQuantity⟩
    let db3 := { db2 with
      productStocks := db2.productStocks ++ [srow],
      nextStockId := db2.nextStockId + 1 }
    let prow : PriceRow := ⟨db3.nextPriceId, prod.product_id, retailPrice,
      some retailPrice, now, none⟩
    .ok ({ db3 with
      productPrices := db3.productPrices ++ [prow],
      nextPriceId := db3.nextPriceId + 1 }, prod.product_id)

/-- The price row `productPrice.findFirst` with `orderBy valid_from desc`
returns: a row of the product with maximal `valid_from`. -/
def latestPriceFor (prices : List PriceRow) (pid : Int) : Option PriceRow :=
  (prices.filter (fun r => r.product_id == pid)).foldl
    (fun acc r =>
      match acc with
      | none => some r
      | some a => if a.valid_from < r.valid_from then some r else some a) none

/-- Shallow embedding of the `updateProduct` transaction
(`app/inventory/actions.ts`) after the auth / role gates: validate, check
the product belongs to the organization, reject a SKU collision with a
different product, update the product fields, resolve the default
warehouse, upsert the stock row there, and update the latest price in
place when it differs (creating one only if none exists). -/
def updateProduct (db : DB) (oid pid : Int) (name sku : String)
    (descr image : Option String) (stock price : Int) (uid : Nat) (now : Nat) :
    Except TxErr DB :=
  if strTrim name = "" then .error (.validationErr "Product name is required")
  else if strTrim sku = "" then .error (.validationErr "Product SKU is required")
  else if !(db.products.any (fun q => q.product_id == pid && q.org_id == oid)) then
    .error .notFound
  else if db.products.any (fun q => q.sku == strTrim sku && q.org_id == oid && !(q.product_id == pid)) then
    .error .conflictSku
  else
    let imageUrl := match image with
      | some s => if strTrim s = "" then none else some (strTrim s)
      | none => none
    let stockQuantity := max 0 stock
    let retailPrice := max 0 price
    let db1 := { db with products := (db.products.map (fun q =>
      if q.product_id == pid then
        { q with
          name := strTrim name, sku := strTrim sku,
          description := descr.map strTrim, image_url := imageUrl,
          modified_by := some uid }
      else q)) }
    let wres := getOrCreateDefaultWarehouse db1 oid
    let db2 := wres.2
    let db3 :=
      match findStock db2.productStocks pid wres.1.warehouse_id with
      | some existing =>
        { db2 with productStocks := updateStockQty db2.productStocks existing.stock_id stockQuantity }
      | none =>
        { db2 with
          productStocks := db2.productStocks ++
            [⟨db2.nextStockId, pid, wres.1.warehouse_id, stockQuantity⟩],
          nextStockId := db2.nextStockId + 1 }
    let db4 :=
      match latestPriceFor db3.productPrices pid with
      | some latest =>
        if latest.retail_price = retailPrice then db3
        else { db3 with productPrices := (db3.productPrices.map (fun r =>
          if r.price_id == latest.price_id then { r with retail_price := retailPrice } else r)) }
      | none =>
        { db3 with
          productPrices := db3.productPrices ++
            [⟨db3.nextPriceId, pid, retailPrice, none, now, none⟩],
          nextPriceId := db3.nextPriceId + 1 }
    .ok db4

/-- One item of a `bulkUpdateProducts` call; absent fields are skipped by
the Prisma update. -/
structure BulkItem where
  id : Int
  name : Option String
  sku : Option String
  description : Option String
  image : Option String
  stock : Option Int
  price : Option Int
deriving Repr, DecidableEq

/-- Stock part of one `bulkUpdateProducts` iteration: when a stock value
was supplied, upsert the product's stock row in the default warehouse. -/
def bulkStockStep (db1 : DB) (oid pid : Int) (stock : Option Int) : DB :=
  match stock with
  | none => db1
  | some st =>
    let wres := getOrCreateDefaultWarehouse db1 oid
    let dbw := wres.2
    match findStock dbw.productStocks pid wres.1.warehouse_id with
    | some existing =>
      { dbw with productStocks := updateStockQty dbw.productStocks existing.stock_id (max 0 st) }
    | none =>
      { dbw with
        productStocks := dbw.productStocks ++
          [⟨dbw.nextStockId, pid, wres.1.warehouse_id, max 0 st⟩],
        nextStockId := dbw.nextStockId + 1 }

/-- Price part of one `bulkUpdateProducts` iteration: when a price value
was supplied, update the latest price row in place, or create one when
none exists. -/
def bulkPriceStep (db2 : DB) (pid : Int) (price : Option Int) (now : Nat) : DB :=
  match price with
  | none => db2
  | some pr =>
    match latestPriceFor db2.productPrices pid with
    | some latest =>
      { db2 with productPrices := (db2.productPrices.map (fun r =>
        if r.price_id == latest.price_id then { r with retail_price := max 0 pr } else r)) }
    | none =>
      { db2 with
        productPrices := db2.productPrices ++
          [⟨db2.nextPriceId, pid, max 0 pr, none, now, none⟩],
        nextPriceId := db2.nextPriceId + 1 }

/-- One iteration of the `bulkUpdateProducts` transaction loop
(`app/inventory/actions.ts`): update the product (failing when it is not
in the organization), then the stock step, then the price step. -/
def bulkUpdateOne (db : DB) (oid : Int) (it : BulkItem) (uid : Nat) (now : Nat) :
    Except TxErr DB :=
  if !(db.products.any (fun q => q.product_id == it.id && q.org_id == oid)) then
    .error .notFound
  else
    let db1 := { db with products := (db.products.map (fun q =>
      if q.product_id == it.id then
        { q with
          name := (it.name.map strTrim).getD q.name,
          sku := (it.sku.map strTrim).getD q.sku,
          description := it.description.map strTrim,
          image_url := it.image.map strTrim,
          modified_by := some uid }
      else q)) }
    .ok (bulkPriceStep (bulkStockStep db1 oid it.id it.stock) it.id it.price now)

/-- The `bulkUpdateProducts` transaction loop over the supplied items. -/
def bulkUpdateGo (db : DB) (oid : Int) (items : List BulkItem) (uid : Nat)
    (now : Nat) : Except TxErr DB :=
  match items with
  | [] => .ok db
  | it :: rest =>
    match bulkUpdateOne db oid it uid now with
    | .error e => .error e
    | .ok db1 => bulkUpdateGo db1 oid rest uid now

/-- Shallow embedding of `bulkUpdateProducts` after the auth / role gates:
reject an empty update list, then run the transaction loop. -/
def bulkUpdateProducts (db : DB) (oid : Int) (items : List BulkItem)
    (uid : Nat) (now : Nat) : Except TxErr DB :=
  if items.isEmpty then .error (.validationErr "No updates provided")
  else bulkUpdateGo db oid items uid now

end Viona

namespace Viona

theorem gocdw_found (db : DB) (oid : Int) (w0 : Warehouse)
    (hw : db.warehouses.find? (fun w => w.org_id == oid) = some w0) :
    getOrCreateDefaultWarehouse db oid = (w0, db) := by
  unfold getOrCreateDefaultWarehouse
  rw [hw]

theorem gocdw_created (db : DB) (oid : Int)
    (hw : db.warehouses.find? (fun w => w.org_id == oid) = none) :
    (getOrCreateDefaultWarehouse db oid).1.name = "Default Warehouse" ∧
    (getOrCreateDefaultWarehouse db oid).2.warehouses
      = db.warehouses ++ [(getOrCreateDefaultWarehouse db oid).1] := by
  unfold getOrCreateDefaultWarehouse
  rw [hw]
  exact ⟨rfl, rfl⟩

theorem gocdw_snd_productStocks (db : DB) (oid : Int) :
    (getOrCreateDefaultWarehouse db oid).2.productStocks = db.productStocks := by
  unfold getOrCreateDefaultWarehouse
  cases db.warehouses.find? (fun w => w.org_id == oid) <;> rfl

theorem gocdw_snd_nextStockId (db : DB) (oid : Int) :
    (getOrCreateDefaultWarehouse db oid).2.nextStockId = db.nextStockId := by
  unfold getOrCreateDefaultWarehouse
  cases db.warehouses.find? (fun w => w.org_id == oid) <;> rfl

theorem gocdw_fst_products_irrelevant (db : DB) (oid : Int) (ps : List ProductRec)
    (n : Int) :
    (getOrCreateDefaultWarehouse { db with products := ps, nextProductId := n } oid).1
      = (getOrCreateDefaultWarehouse db oid).1 := by
  unfold getOrCreateDefaultWarehouse
  dsimp only
  cases db.warehouses.find? (fun w => w.org_id == oid) <;> rfl

theorem gocdw_fst_products_set (db : DB) (oid : Int) (ps : List ProductRec) :
    (getOrCreateDefaultWarehouse { db with products := ps } oid).1
      = (getOrCreateDefaultWarehouse db oid).1 := by
  unfold getOrCreateDefaultWarehouse
  dsimp only
  cases db.warehouses.find? (fun w => w.org_id == oid) <;> rfl

theorem addProduct_stock_target (db : DB) (oid : Int) (name sku : String)
    (descr image : Option String) (stock price : Int) (uid now : Nat)
    (db2 : DB) (pid : Int)
    (hok : addProduct db oid name sku descr image stock price uid now = .ok (db2, pid)) :
    db2.productStocks = db.productStocks ++
      [⟨db.nextStockId, pid, (getOrCreateDefaultWarehouse db oid).1.warehouse_id,
        max 0 stock⟩] := by
  unfold addProduct at hok
  split at hok
  · cases hok
  split at hok
  · cases hok
  split at hok
  · cases hok
  rw [Except.ok.injEq, Prod.mk.injEq] at hok
  obtain ⟨hdb, hpid⟩ := hok
  subst hdb
  subst hpid
  dsimp only
  rw [gocdw_snd_productStocks, gocdw_snd_nextStockId, gocdw_fst_products_irrelevant]

end Viona

namespace Viona

theorem updateProduct_stock_target (db : DB) (oid pid : Int) (name sku : String)
    (descr image : Option String) (stock price : Int) (uid now : Nat) (db2 : DB)
    (hok : updateProduct db oid pid name sku descr image stock price uid now = .ok db2) :
    (∃ existing, findStock db.productStocks pid
        (getOrCreateDefaultWarehouse db oid).1.warehouse_id = some existing ∧
      db2.productStocks = updateStockQty db.productStocks existing.stock_id (max 0 stock)) ∨
    (findStock db.productStocks pid
        (getOrCreateDefaultWarehouse db oid).1.warehouse_id = none ∧
      db2.productStocks = db.productStocks ++
        [⟨db.nextStockId, pid, (getOrCreateDefaultWarehouse db oid).1.warehouse_id,
          max 0 stock⟩]) := by
  unfold updateProduct at hok
  split at hok
  · cases hok
  split at hok
  · cases hok
  split at hok
  · cases hok
  split at hok
  · cases hok
  rw [Except.ok.injEq] at hok
  subst hok
  split
  next latest hlp =>
    split
    next =>
      split
      next existing hfs =>
        refine Or.inl ⟨existing, ?_, ?_⟩
        · rw [gocdw_snd_productStocks, gocdw_fst_products_set] at hfs
          exact hfs
        · dsimp only
          rw [gocdw_snd_productStocks]
      next hfs =>
        refine Or.inr ⟨?_, ?_⟩
        · rw [gocdw_snd_productStocks, gocdw_fst_products_set] at hfs
          exact hfs
        · dsimp only
          rw [gocdw_snd_productStocks, gocdw_snd_nextStockId, gocdw_fst_products_set]
    next =>
      split
      next existing hfs =>
        refine Or.inl ⟨existing, ?_, ?_⟩
        · rw [gocdw_snd_productStocks, gocdw_fst_products_set] at hfs
          exact hfs
        · dsimp only
          rw [gocdw_snd_productStocks]
      next hfs =>
        refine Or.inr ⟨?_, ?_⟩
        · rw [gocdw_snd_productStocks, gocdw_fst_products_set] at hfs
          exact hfs
        · dsimp only
          rw [gocdw_snd_productStocks, gocdw_snd_nextStockId, gocdw_fst_products_set]
  next hlp =>
    split
    next existing hfs =>
      refine Or.inl ⟨existing, ?_, ?_⟩
      · rw [gocdw_snd_productStocks, gocdw_fst_products_set] at hfs
        exact hfs
      · dsimp only
        rw [gocdw_snd_productStocks]
    next hfs =>
      refine Or.inr ⟨?_, ?_⟩
      · rw [gocdw_snd_productStocks, gocdw_fst_products_set] at hfs
        exact hfs
      · dsimp only
        rw [gocdw_snd_productStocks, gocdw_snd_nextStockId, gocdw_fst_products_set]

end Viona

namespace Viona

theorem mem_updateStockQty_cases (stocks : List StockRow) (sid : Nat) (q : Int)
    (s : StockRow) (hs : s ∈ updateStockQty stocks sid q) :
    ∃ x ∈ stocks, s = (if x.stock_id == sid then { x with quantity := q } else x) := by
  unfold updateStockQty at hs
  obtain ⟨x, hx, hgx⟩ := List.mem_map.mp hs
  exact ⟨x, hx, hgx.symm⟩

theorem updateStockQty_fresh (stocks : List StockRow) (sid : Nat) (q : Int)
    (n : Nat) (h : ∀ x ∈ stocks, x.stock_id < n) :
    ∀ s ∈ updateStockQty stocks sid q, s.stock_id < n := by
  intro s hs
  obtain ⟨x, hx, hgx⟩ := mem_updateStockQty_cases stocks sid q s hs
  subst hgx
  by_cases hid : (x.stock_id == sid) = true
  · rw [if_pos hid]
    exact h x hx
  · rw [if_neg hid]
    exact h x hx

theorem updateStockQty_inv (stocks : List StockRow) (existing : StockRow)
    (q : Int) (whid : Int)
    (hnd : (stocks.map (fun x => x.stock_id)).Nodup)
    (hmem : existing ∈ stocks) (hwh : existing.warehouse_id = whid)
    (s : StockRow) (hs : s ∈ updateStockQty stocks existing.stock_id q) :
    s ∈ stocks ∨ s.warehouse_id = whid := by
  obtain ⟨x, hx, hgx⟩ := mem_updateStockQty_cases stocks existing.stock_id q s hs
  subst hgx
  by_cases hid : (x.stock_id == existing.stock_id) = true
  · have hxe : x = existing :=
      List.inj_on_of_nodup_map hnd hx hmem (beq_iff_eq.mp hid)
    rw [if_pos hid]
    right
    show x.warehouse_id = whid
    rw [hxe]
    exact hwh
  · rw [if_neg hid]
    exact Or.inl hx

theorem bulkPriceStep_keeps (db2 : DB) (pid : Int) (priceOpt : Option Int)
    (now : Nat) :
    (bulkPriceStep db2 pid priceOpt now).productStocks = db2.productStocks ∧
    (bulkPriceStep db2 pid priceOpt now).warehouses = db2.warehouses ∧
    (bulkPriceStep db2 pid priceOpt now).nextStockId = db2.nextStockId := by
  unfold bulkPriceStep
  cases priceOpt with
  | none => exact ⟨rfl, rfl, rfl⟩
  | some pr =>
    cases latestPriceFor db2.productPrices pid <;> exact ⟨rfl, rfl, rfl⟩

theorem bulkStockStep_inv (db1 : DB) (oid pid : Int) (stockOpt : Option Int)
    (w0 : Warehouse)
    (hw : db1.warehouses.find? (fun w => w.org_id == oid) = some w0)
    (hnd : (db1.productStocks.map (fun x => x.stock_id)).Nodup)
    (hfresh : ∀ s ∈ db1.productStocks, s.stock_id < db1.nextStockId) :
    (∀ s ∈ (bulkStockStep db1 oid pid stockOpt).productStocks,
      s ∈ db1.productStocks ∨ s.warehouse_id = w0.warehouse_id) ∧
    (bulkStockStep db1 oid pid stockOpt).warehouses = db1.warehouses ∧
    ((bulkStockStep db1 oid pid stockOpt).productStocks.map (fun x => x.stock_id)).Nodup ∧
    (∀ s ∈ (bulkStockStep db1 oid pid stockOpt).productStocks,
      s.stock_id < (bulkStockStep db1 oid pid stockOpt).nextStockId) := by
  unfold bulkStockStep
  cases stockOpt with
  | none => exact ⟨fun s hs => Or.inl hs, rfl, hnd, hfresh⟩
  | some st =>
    rw [gocdw_found db1 oid w0 hw]
    dsimp only
    split
    next existing hfs =>
      obtain ⟨hfp, hfw, hfm⟩ := findStock_fields _ _ _ _ hfs
      refine ⟨?_, rfl, ?_, ?_⟩
      · intro s hs
        exact updateStockQty_inv db1.productStocks existing (max 0 st)
          w0.warehouse_id hnd hfm hfw s hs
      · rw [updateStockQty_ids]
        exact hnd
      · intro s hs
        exact updateStockQty_fresh db1.productStocks existing.stock_id (max 0 st)
          db1.nextStockId hfresh s hs
    next hfs =>
      refine ⟨?_, rfl, ?_, ?_⟩
      · intro s hs
        rcases List.mem_append.mp hs with h | h
        · exact Or.inl h
        · right
          have hsx := List.mem_singleton.mp h
          rw [hsx]
      · rw [List.map_append, List.nodup_append]
        refine ⟨hnd, List.nodup_singleton _, ?_⟩
        intro a ha hb
        obtain ⟨x, hx, hxa⟩ := List.mem_map.mp ha
        have hlt := hfresh x hx
        have hab : a = db1.nextStockId := by
          simpa using hb
        omega
      · intro s hs
        show s.stock_id < db1.nextStockId + 1
        rcases List.mem_append.mp hs with h | h
        · have := hfresh s h
          omega
        · have hsx := List.mem_singleton.mp h
          rw [hsx]
          show db1.nextStockId < db1.nextStockId + 1
          omega

end Viona

namespace Viona

theorem bulkUpdateOne_inv (db : DB) (oid : Int) (it : BulkItem) (uid now : Nat)
    (w0 : Warehouse) (db1 : DB)
    (hw : db.warehouses.find? (fun w => w.org_id == oid) = some w0)
    (hnd : StocksWF db)
    (hfresh : ∀ s ∈ db.productStocks, s.stock_id < db.nextStockId)
    (hok : bulkUpdateOne db oid it uid now = .ok db1) :
    (∀ s ∈ db1.productStocks, s ∈ db.productStocks ∨ s.warehouse_id = w0.warehouse_id) ∧
    db1.warehouses = db.warehouses ∧
    StocksWF db1 ∧
    (∀ s ∈ db1.productStocks, s.stock_id < db1.nextStockId) := by
  unfold bulkUpdateOne at hok
  split at hok
  · cases hok
  rw [Except.ok.injEq] at hok
  subst hok
  obtain ⟨hs1, hw1, hn1, hf1⟩ := bulkStockStep_inv
    { db with products := (db.products.map (fun q =>
      if q.product_id == it.id then
        { q with
          name := (it.name.map strTrim).getD q.name,
          sku := (it.sku.map strTrim).getD q.sku,
          description := it.description.map strTrim,
          image_url := it.image.map strTrim,
          modified_by := some uid }
      else q)) } oid it.id it.stock w0 hw hnd hfresh
  obtain ⟨hps, hpw, hpn⟩ := bulkPriceStep_keeps
    (bulkStockStep { db with products := (db.products.map (fun q =>
      if q.product_id == it.id then
        { q with
          name := (it.name.map strTrim).getD q.name,
          sku := (it.sku.map strTrim).getD q.sku,
          description := it.description.map strTrim,
          image_url := it.image.map strTrim,
          modified_by := some uid }
      else q)) } oid it.id it.stock) it.id it.price now
  refine ⟨?_, ?_, ?_, ?_⟩
  · intro s hs
    rw [hps] at hs
    exact hs1 s hs
  · rw [hpw, hw1]
  · show ((bulkPriceStep _ _ _ _).productStocks.map (fun x => x.stock_id)).Nodup
    rw [hps]
    exact hn1
  · intro s hs
    rw [hps] at hs
    rw [hpn]
    exact hf1 s hs

theorem bulkUpdateGo_inv (oid : Int) (uid now : Nat) (w0 : Warehouse) :
    ∀ (items : List BulkItem) (db db2 : DB),
      db.warehouses.find? (fun w => w.org_id == oid) = some w0 →
      StocksWF db →
      (∀ s ∈ db.productStocks, s.stock_id < db.nextStockId) →
      bulkUpdateGo db oid items uid now = .ok db2 →
      ∀ s ∈ db2.productStocks, s ∈ db.productStocks ∨ s.warehouse_id = w0.warehouse_id := by
  intro items
  induction items with
  | nil =>
    intro db db2 hw hnd hfresh hok
    unfold bulkUpdateGo at hok
    rw [Except.ok.injEq] at hok
    subst hok
    exact fun s hs => Or.inl hs
  | cons it rest ih =>
    intro db db2 hw hnd hfresh hok
    unfold bulkUpdateGo at hok
    cases hstep : bulkUpdateOne db oid it uid now with
    | error e =>
      rw [hstep] at hok
      cases hok
    | ok dbm =>
      rw [hstep] at hok
      obtain ⟨hmem1, hwh1, hnd1, hfresh1⟩ :=
        bulkUpdateOne_inv db oid it uid now w0 dbm hw hnd hfresh hstep
      have hw1 : dbm.warehouses.find? (fun w => w.org_id == oid) = some w0 := by
        rw [hwh1]
        exact hw
      intro s hs
      rcases ih dbm db2 hw1 hnd1 hfresh1 hok s hs with h | h
      · exact hmem1 s h
      · exact Or.inr h

end Viona

namespace Viona

/-- Claim C10: the `default warehouse` used by `addProduct`,
`updateProduct` and `bulkUpdateProducts` is the organization's first
existing warehouse whatever its name: `getOrCreateDefaultWarehouse`
returns the first warehouse row of the organization unchanged when one
exists, and creates a warehouse named `Default Warehouse` only when the
organization has none; `addProduct` appends its stock row at that
warehouse, `updateProduct` upserts its stock row at that warehouse, and
every stock row `bulkUpdateProducts` touches or creates lives in that
warehouse. -/
theorem defaultWarehouse_first_existing (db : DB) (oid : Int) (w0 : Warehouse)
    (name sku : String) (descr image : Option String) (stock price : Int)
    (uid now : Nat) (pid : Int) (items : List BulkItem) :
    (db.warehouses.find? (fun w => w.org_id == oid) = some w0 →
      getOrCreateDefaultWarehouse db oid = (w0, db)) ∧
    (db.warehouses.find? (fun w => w.org_id == oid) = none →
      (getOrCreateDefaultWarehouse db oid).1.name = "Default Warehouse" ∧
      (getOrCreateDefaultWarehouse db oid).2.warehouses
        = db.warehouses ++ [(getOrCreateDefaultWarehouse db oid).1]) ∧
    (∀ db2, addProduct db oid name sku descr image stock price uid now = .ok (db2, pid) →
      db2.productStocks = db.productStocks ++
        [⟨db.nextStockId, pid, (getOrCreateDefaultWarehouse db oid).1.warehouse_id,
          max 0 stock⟩]) ∧
    (∀ db2, updateProduct db oid pid name sku descr image stock price uid now = .ok db2 →
      (∃ existing, findStock db.productStocks pid
          (getOrCreateDefaultWarehouse db oid).1.warehouse_id = some existing ∧
        db2.productStocks = updateStockQty db.productStocks existing.stock_id (max 0 stock)) ∨
      (findStock db.productStocks pid
          (getOrCreateDefaultWarehouse db oid).1.warehouse_id = none ∧
        db2.productStocks = db.productStocks ++
          [⟨db.nextStockId, pid, (getOrCreateDefaultWarehouse db oid).1.warehouse_id,
            max 0 stock⟩])) ∧
    (db.warehouses.find? (fun w => w.org_id == oid) = some w0 →
      StocksWF db →
      (∀ s ∈ db.productStocks, s.stock_id < db.nextStockId) →
      ∀ db2, bulkUpdateProducts db oid items uid now = .ok db2 →
        ∀ s ∈ db2.productStocks,
          s ∈ db.productStocks ∨ s.warehouse_id = w0.warehouse_id) := by
  refine ⟨gocdw_found db oid w0, gocdw_created db oid,
    fun db2 => addProduct_stock_target db oid name sku descr image stock price uid now db2 pid,
    fun db2 => updateProduct_stock_target db oid pid name sku descr image stock price uid now db2,
    ?_⟩
  intro hw hnd hfresh db2 hok
  unfold bulkUpdateProducts at hok
  split at hok
  · cases hok
  exact bulkUpdateGo_inv oid uid now w0 items db db2 hw hnd hfresh hok

/-- Concrete database for the C10 witness: organization 5 already has one
warehouse, and it is not named `Default Warehouse`. -/
def dbWh : DB :=
  { emptyDB with warehouses := [⟨11, 5, "Main", "addr"⟩], nextWarehouseId := 12 }

/-- Witness for C10: with an existing warehouse named `Main` the helper
returns it unchanged; with no warehouse it creates `Default Warehouse`. -/
theorem defaultWarehouse_first_existing_witness :
    dbWh.warehouses.find? (fun w => w.org_id == 5) = some ⟨11, 5, "Main", "addr"⟩ ∧
    getOrCreateDefaultWarehouse dbWh 5 = (⟨11, 5, "Main", "addr"⟩, dbWh) ∧
    emptyDB.warehouses.find? (fun w => w.org_id == 5) = none ∧
    (getOrCreateDefaultWarehouse emptyDB 5).1.name = "Default Warehouse" :=
  ⟨by decide,
   (defaultWarehouse_first_existing dbWh 5 ⟨11, 5, "Main", "addr"⟩ "" "" none none
      0 0 0 0 0 []).1 (by decide),
   by decide,
   ((defaultWarehouse_first_existing emptyDB 5 ⟨0, 0, "", ""⟩ "" "" none none
      0 0 0 0 0 []).2.1 (by decide)).1⟩

end Viona
